import Mathlib

/-!
Verification of the git-next advice-resolution engine.

The definitions below are a shallow embedding of the Go sources:
  * `RepoState`, `Advice`         from pkg/model/types.go
  * `LegacyRules.*`               from the monolithic catalog (package rules,
                                  `AllRules()` without parameters)
  * `ModularRules.*`, `Config`    from internal/rules/ and internal/config/config.go
  * `engine` definitions          from the engine package (Suppresses, Evaluate,
                                  applySuppression, extractCommand)

Machine integers: the Go sources use `int` only for counts and priorities and
never perform arithmetic on them (only comparisons), so they are embedded as
`Int` with no overflow modelling needed.

Strings: the Go code uses strings.Contains / strings.Split / strings.TrimSpace /
strings.Fields.  The Lean builtin counterparts are not kernel-reducible, so the
same semantics are implemented below on `String.data` (`List Char`) with
structural recursion: `goContains`, `goSplit`, `goTrim`, `goFields` follow the
documented behaviour of the Go standard library functions (split on every
non-overlapping occurrence of the separator left to right; trim whitespace on
both ends; fields = maximal runs of non-whitespace characters).
-/

namespace GitNext

/-- `model.RepoState` (pkg/model/types.go): the snapshot of repository facts. -/
structure RepoState where
  Dirty                : Bool := false
  StagedFiles          : Int := 0
  ModifiedFiles        : Int := 0
  UntrackedFiles       : Int := 0
  Ahead                : Int := 0
  Behind               : Int := 0
  HasStash             : Bool := false
  OnDetachedHead       : Bool := false
  LastCommitPushed     : Bool := false
  CommitCountSincePush : Int := 0
  OnProtectedBranch    : Bool := false
  HasMergeCommits      : Bool := false
  MergeInProgress      : Bool := false
  RebaseInProgress     : Bool := false
  CherryPickInProgress : Bool := false
  NoUpstream           : Bool := false
  MergedBranches       : List String := []
  GoneBranches         : List String := []
  ForcePushToShared        : Bool := false
  RewrittenPublishedTags   : Bool := false
  ResetOnProtectedBranch   : Bool := false
  SubmoduleRewriteNoUpdate : Bool := false
  AccidentalHistoryRewrite : Bool := false
  ConflictedFilesStaged    : Bool := false
  ConflictedFiles          : List String := []
  LargeBinariesWithoutLFS  : Bool := false
  LargeBinaryFiles         : List String := []
  LineEndingConflict       : Bool := false
  SubmoduleDetachedHead    : Bool := false
  SubmoduleName            : String := ""
  ShallowCloneHistoryOps   : Bool := false
  WorkOnMainNotFeature     : Bool := false
  LongLivedFeatureBranch   : Bool := false
  FeatureBranchAgeDays     : Int := 0
  SquashRecommended        : Bool := false
  NoisyCommitCount         : Int := 0
  WIPCommitOnShared        : Bool := false
  WIPCommitMessage         : String := ""
  RebaseInsteadOfMerge     : Bool := false
  PoorCommitMessage        : Bool := false
  LastCommitMessage        : String := ""
  AmendLastCommitSuggested : Bool := false
  UnpushedLocalTags        : Bool := false
  UnpushedTags             : List String := []
  StashStackGrowing        : Bool := false
  StashCount               : Int := 0
  OldestStashAgeDays       : Int := 0
  RepoSizeGrowingFast      : Bool := false
  RepoSizeMB               : Int := 0
  InactiveBranches         : List String := []
  OnDetachedHeadClean      : Bool := false
deriving DecidableEq, Repr

/-- `model.Advice` (pkg/model/types.go): one piece of actionable advice. -/
structure Advice where
  RuleID      : String
  Command     : String
  Description : String
  Priority    : Int
  Suppressed  : Bool
  Reason      : String
deriving DecidableEq, Repr

/-- Placeholder advice used as the default of `List.getD` in closed statements. -/
def dummyAdvice : Advice :=
  { RuleID := "", Command := "", Description := "", Priority := 0,
    Suppressed := false, Reason := "" }

/-- `rules.RuleDef`: a rule with its metadata (identical in both Go catalogs). -/
structure RuleDef where
  ID          : String
  Check       : RepoState → Bool
  Command     : String
  Description : String
  Priority    : Int

/-! ### Character-level models of the Go strings functions -/

/-- Does `pat` occur at the head of `s`?  (`List.isPrefixOf` semantics, spelled
out so that every use below reduces in the kernel.) -/
def startsWithChars : List Char → List Char → Bool
  | [], _ => true
  | _ :: _, [] => false
  | p :: ps, c :: cs => p == c && startsWithChars ps cs

/-- `strings.Contains s sub` for a non-empty `sub`: does `sub` occur in `s`? -/
def containsChars (sub : List Char) : List Char → Bool
  | [] => startsWithChars sub []
  | c :: cs => startsWithChars sub (c :: cs) || containsChars sub cs

/-- `strings.Contains` on `String`s. -/
def goContains (s sub : String) : Bool :=
  containsChars sub.data s.data

/-- Worker for `goSplit`: scan left to right, cutting at every non-overlapping
occurrence of `sep`.  `fuel` bounds the number of steps (it is instantiated with
the length of the scanned list, which suffices because every step consumes at
least one character); the fuel-exhaustion branch is unreachable. -/
def splitCharsAux (sep : List Char) : Nat → List Char → List Char → List (List Char)
  | _, cur, [] => [cur.reverse]
  | 0, cur, rest => [cur.reverse ++ rest]
  | n + 1, cur, c :: cs =>
    if startsWithChars sep (c :: cs) then
      cur.reverse :: splitCharsAux sep n [] (cs.drop (sep.length - 1))
    else
      splitCharsAux sep n (c :: cur) cs

/-- `strings.Split s sep`.  For the empty separator Go splits after every rune;
the engine only ever calls it with `"&&"` and `" OR "`. -/
def goSplit (s sep : String) : List String :=
  if sep.data = [] then
    s.data.map (fun c => String.mk [c])
  else
    (splitCharsAux sep.data s.data.length [] s.data).map String.mk

/-- `strings.TrimSpace`: drop whitespace from both ends. -/
def goTrim (s : String) : String :=
  String.mk (((s.data.dropWhile Char.isWhitespace).reverse.dropWhile Char.isWhitespace).reverse)

/-- Worker for `goFields`: split into maximal runs of non-whitespace characters. -/
def fieldsCharsAux : List Char → List Char → List (List Char)
  | cur, [] => if cur.isEmpty then [] else [cur.reverse]
  | cur, c :: cs =>
    if c.isWhitespace then
      if cur.isEmpty then fieldsCharsAux [] cs else cur.reverse :: fieldsCharsAux [] cs
    else
      fieldsCharsAux (c :: cur) cs

/-- `strings.Fields`. -/
def goFields (s : String) : List String :=
  (fieldsCharsAux [] s.data).map String.mk

/-! ### The engine: suppression table, command-key extraction, suppression pass
(engine package; the file defining `Suppresses`, `Evaluate`, `applySuppression`
and `extractCommand`). -/

/-- The `Suppresses` map: each command key maps to the command keys it
suppresses when active.  A Go `map` literal with distinct keys, embedded as an
association list; lookups go through `suppressesLookup`. -/
def Suppresses : List (String × List String) :=
  [ ("merge --continue",      ["merge", "rebase", "reset", "commit", "pull", "push", "checkout"]),
    ("merge --abort",         ["merge", "rebase", "reset", "commit", "pull", "push", "checkout"]),
    ("rebase --continue",     ["merge", "rebase", "reset", "commit", "pull", "push", "checkout"]),
    ("rebase --abort",        ["merge", "rebase", "reset", "commit", "pull", "push", "checkout"]),
    ("cherry-pick --continue", ["merge", "rebase", "reset", "commit", "pull", "push", "checkout"]),
    ("cherry-pick --abort",    ["merge", "rebase", "reset", "commit", "pull", "push", "checkout"]),
    ("revert", ["reset"]),
    ("merge",  ["rebase"]),
    ("rebase", ["pull"]),
    ("reset",  ["commit"]) ]

/-- `Suppresses[cmd]` (Go map lookup: `some` iff the key is present). -/
def suppressesLookup (cmd : String) : Option (List String) :=
  (Suppresses.find? (fun p => p.1 == cmd)).map (fun p => p.2)

/-- First statement of `extractCommand`: compound commands (`"a && b"`) are
replaced by their trimmed *last* `&&`-separated part. -/
def dropCompound (cmd : String) : String :=
  if goContains cmd "&&" then goTrim ((goSplit cmd "&&").getLastD "") else cmd

/-- Second statement of `extractCommand`: `"a OR b"` commands are replaced by
their trimmed *first* alternative. -/
def pickFirstAlternative (cmd : String) : String :=
  if goContains cmd " OR " then goTrim ((goSplit cmd " OR ").headD "") else cmd

/-- Final part of `extractCommand`: from the whitespace-separated fields, a
command of the shape `git <verb> ...` yields `<verb>`, with a `--continue` or
`--abort` in third position kept as part of the key; anything else yields `""`. -/
def keyFromSimple (cmd : String) : String :=
  let parts := goFields cmd
  if 2 ≤ parts.length && parts.getD 0 "" == "git" then
    let command := parts.getD 1 ""
    if 3 ≤ parts.length && (parts.getD 2 "" == "--continue" || parts.getD 2 "" == "--abort") then
      command ++ " " ++ parts.getD 2 ""
    else
      command
  else
    ""

/-- `extractCommand`: the canonical command key of a command template. -/
def extractCommand (cmd : String) : String :=
  keyFromSimple (pickFirstAlternative (dropCompound cmd))

/-- The body of the inner loop of `applySuppression` applied to one later entry:
if the entry's command key is among `targets`, mark it suppressed with a reason
naming the suppressing key `cmd`.  (The Go loop sets the two fields on the first
matching element of `suppressedCmds` and then breaks, which is exactly the
membership test; note it does *not* check whether the entry is already
suppressed, so an existing reason is overwritten.) -/
def suppressOne (cmd : String) (targets : List String) (a : Advice) : Advice :=
  if extractCommand a.Command ∈ targets then
    { a with Suppressed := true,
             Reason := "Suppressed by " ++ cmd ++ " (higher priority)" }
  else a

/-- The inner `for j := i + 1; ...` loop of `applySuppression`: apply
`suppressOne` to every entry after position `i`. -/
def suppressTail (cmd : String) (targets : List String) (l : List Advice) : List Advice :=
  l.map (suppressOne cmd targets)

/-- The second (and only effective) loop of `applySuppression`, as a recursion
on the remaining entries: the iteration for position `i` sees the list as
already updated by iterations `0..i-1` (the Go loop mutates the slice in
place and the inner loop only writes to positions after `i`), skips the entry
if it is suppressed, and otherwise applies its suppression set to the whole
tail.  `fuel` makes the recursion structural; it is instantiated with the list
length, which suffices since `suppressTail` preserves length, so the
fuel-exhaustion branch is unreachable. -/
def applySuppressionFuel : Nat → List Advice → List Advice
  | _, [] => []
  | 0, l => l
  | n + 1, a :: rest =>
    if a.Suppressed then
      a :: applySuppressionFuel n rest
    else
      match suppressesLookup (extractCommand a.Command) with
      | some targets =>
          a :: applySuppressionFuel n (suppressTail (extractCommand a.Command) targets rest)
      | none => a :: applySuppressionFuel n rest

/-- `applySuppression` (engine): apply the suppression rules to an ordered
advice list.  The Go function also builds an `activeCommands` map in a first
pass, but the second pass never reads it (dead code), so only the second pass
is modelled. -/
def applySuppression (l : List Advice) : List Advice :=
  applySuppressionFuel l.length l

/-- The advice record materialised for a triggered rule inside `Evaluate`. -/
def toAdvice (r : RuleDef) : Advice :=
  { RuleID := r.ID, Command := r.Command, Description := r.Description,
    Priority := r.Priority, Suppressed := false, Reason := "" }

/-- The first loop of `Evaluate`: one advice record per triggered rule, in
catalog enumeration order. -/
def rawAdvice (catalog : List RuleDef) (state : RepoState) : List Advice :=
  (catalog.filter (fun r => r.Check state)).map toAdvice

namespace LegacyRules

/-! The monolithic, parameter-free rule catalog (package `rules` with the
no-argument `AllRules()`), which is the catalog the engine's `Evaluate`
actually calls. -/

/-- R001 - Detached HEAD. -/
def R001 (state : RepoState) : Bool := state.OnDetachedHead

/-- R009 - Merge in Progress. -/
def R009 (state : RepoState) : Bool := state.MergeInProgress

/-- R010 - Rebase in Progress. -/
def R010 (state : RepoState) : Bool := state.RebaseInProgress

/-- R011 - Cherry-pick in Progress. -/
def R011 (state : RepoState) : Bool := state.CherryPickInProgress

/-- R021 - Revert Public Commit (beats reset). -/
def R021 (state : RepoState) : Bool := state.LastCommitPushed

/-- R032 - Merge on Protected Branch. -/
def R032 (state : RepoState) : Bool :=
  decide (0 < state.Ahead) && decide (0 < state.Behind) && state.OnProtectedBranch

/-- R006 - Diverged Branch. -/
def R006 (state : RepoState) : Bool :=
  decide (0 < state.Ahead) && decide (0 < state.Behind)

/-- R031 - Rebase Feature Branch. -/
def R031 (state : RepoState) : Bool :=
  decide (0 < state.Ahead) && decide (0 < state.Behind) && !state.OnProtectedBranch

/-- R033 - Existing Merge History. -/
def R033 (state : RepoState) : Bool :=
  state.HasMergeCommits && decide (0 < state.Behind)

/-- R034 - No Upstream Configured. -/
def R034 (state : RepoState) : Bool := state.NoUpstream && !state.OnDetachedHead

/-- R035 - Merged Branches Ready for Cleanup. -/
def R035 (state : RepoState) : Bool := decide (0 < state.MergedBranches.length)

/-- R036 - Gone Remote Branches. -/
def R036 (state : RepoState) : Bool := decide (0 < state.GoneBranches.length)

/-- R020 - Soft Reset Local Commits. -/
def R020 (state : RepoState) : Bool :=
  !state.LastCommitPushed && decide (0 < state.CommitCountSincePush) &&
    decide (state.CommitCountSincePush ≤ 3)

/-- R022 - Too Many Commits to Reset. -/
def R022 (state : RepoState) : Bool :=
  !state.LastCommitPushed && decide (3 < state.CommitCountSincePush)

/-- R005 - Pull When Behind and Clean. -/
def R005 (state : RepoState) : Bool := decide (0 < state.Behind) && !state.Dirty

/-- R030 - Fast-Forward Pull. -/
def R030 (state : RepoState) : Bool :=
  decide (0 < state.Behind) && decide (state.Ahead = 0) && !state.Dirty

/-- R004 - Push Local Commits. -/
def R004 (state : RepoState) : Bool :=
  decide (0 < state.Ahead) && decide (state.Behind = 0) && !state.Dirty

/-- R003 - Staged but Not Committed. -/
def R003 (state : RepoState) : Bool := decide (0 < state.StagedFiles)

/-- R002 - Dirty Working Tree. -/
def R002 (state : RepoState) : Bool :=
  decide (0 < state.ModifiedFiles) && decide (state.StagedFiles = 0)

/-- R007 - Untracked Files. -/
def R007 (state : RepoState) : Bool := decide (0 < state.UntrackedFiles)

/-- R008 - Stash Exists. -/
def R008 (state : RepoState) : Bool := state.HasStash

/-- `AllRules()` of the monolithic catalog: all rules in declaration order
(dangerous tier first, then integrity, workflow, suggestions). -/
def AllRules : List RuleDef :=
  [ { ID := "R021", Check := R021, Command := "git revert HEAD",
      Description := "Last commit was pushed - use revert instead of reset", Priority := 100 },
    { ID := "R009", Check := R009, Command := "git merge --continue OR git merge --abort",
      Description := "Merge in progress - complete or abort", Priority := 98 },
    { ID := "R010", Check := R010, Command := "git rebase --continue OR git rebase --abort",
      Description := "Rebase in progress - complete or abort", Priority := 97 },
    { ID := "R011", Check := R011, Command := "git cherry-pick --continue OR git cherry-pick --abort",
      Description := "Cherry-pick in progress - complete or abort", Priority := 96 },
    { ID := "R001", Check := R001, Command := "git checkout <branch>",
      Description := "Detached HEAD detected - checkout a branch", Priority := 95 },
    { ID := "R032", Check := R032, Command := "git merge origin/<branch>",
      Description := "Diverged on protected branch - merge instead of rebase", Priority := 90 },
    { ID := "R006", Check := R006, Command := "git rebase origin/<branch> OR git merge origin/<branch>",
      Description := "Branch has diverged - need to sync", Priority := 80 },
    { ID := "R034", Check := R034, Command := "git branch --set-upstream-to=origin/<branch>",
      Description := "No upstream configured for current branch", Priority := 75 },
    { ID := "R031", Check := R031, Command := "git rebase origin/<branch>",
      Description := "Feature branch diverged - rebase to keep linear history", Priority := 70 },
    { ID := "R035", Check := R035, Command := "git branch -d <branch>",
      Description := "Merged branches ready for cleanup", Priority := 65 },
    { ID := "R036", Check := R036, Command := "git branch -d <branch>",
      Description := "Gone remote branches - local cleanup needed", Priority := 62 },
    { ID := "R033", Check := R033, Command := "git merge origin/<branch>",
      Description := "Existing merge commits detected - continue with merge", Priority := 60 },
    { ID := "R005", Check := R005, Command := "git pull",
      Description := "Behind remote and clean - pull updates", Priority := 55 },
    { ID := "R004", Check := R004, Command := "git push",
      Description := "Local commits ready to push", Priority := 50 },
    { ID := "R030", Check := R030, Command := "git pull --ff-only",
      Description := "Can fast-forward - safe to pull", Priority := 48 },
    { ID := "R020", Check := R020, Command := "git reset --soft HEAD~N",
      Description := "Local commits (≤3) can be soft reset", Priority := 45 },
    { ID := "R022", Check := R022, Command := "git rebase -i HEAD~N",
      Description := "Too many local commits - use interactive rebase", Priority := 42 },
    { ID := "R003", Check := R003, Command := "git commit",
      Description := "Staged files waiting for commit", Priority := 38 },
    { ID := "R002", Check := R002, Command := "git add <files> && git commit",
      Description := "Modified files not staged", Priority := 35 },
    { ID := "R007", Check := R007, Command := "git add <files>",
      Description := "Untracked files present", Priority := 20 },
    { ID := "R008", Check := R008, Command := "git stash pop",
      Description := "Stash exists - consider applying", Priority := 15 } ]

end LegacyRules

/-- Model of `sort.Sort(model.ByPriority advice)`: Go's `sort.Sort` is an
unspecified (unstable) comparison sort with `Less i j = Priority i > Priority j`.
It is modelled as an insertion sort into non-increasing priority order.  The
choice of algorithm is provably irrelevant on every list this engine feeds to
it: the legacy catalog's priorities are strictly decreasing, so the filtered
advice list is already strictly sorted and every comparison sort fixes it
(see `rawAdvice_sorted` / `sortByPriority_rawAdvice` below). -/
def sortByPriority (l : List Advice) : List Advice :=
  l.insertionSort (fun a b => b.Priority ≤ a.Priority)

/-- `Evaluate` (engine): run all rules of the (monolithic) catalog against the
repo state, sort by priority, apply suppression. -/
def Evaluate (state : RepoState) : List Advice :=
  applySuppression (sortByPriority (rawAdvice LegacyRules.AllRules state))

/-! ### Configuration (internal/config/config.go) and the modular catalog
(internal/rules/).  The Go parameter store is `map[string]map[string]interface{}`;
its values are embedded as `ParamValue`.  `GetIntParam`'s `float64`-to-`int`
coercion branch is not modelled (floating point); non-integer values fall back
to the default, which is the behaviour for every value shape other than a
numeric one. -/

/-- A value of the per-rule parameter store. -/
inductive ParamValue where
  | vint (n : Int)
  | vstr (s : String)
  | vother
deriving DecidableEq, Repr

/-- `config.RuleConfig`. -/
structure RuleConfig where
  Disabled   : List String
  Parameters : List (String × List (String × ParamValue))
deriving DecidableEq, Repr

/-- `config.SuppressionConfig`. -/
structure SuppressionConfig where
  Custom : List (String × List String)
deriving DecidableEq, Repr

/-- `config.Config`. -/
structure Config where
  ProtectedBranches : List String
  Rules             : RuleConfig
  Suppression       : SuppressionConfig
deriving DecidableEq, Repr

/-- `config.Defaults()`. -/
def Config.Defaults : Config :=
  { ProtectedBranches := ["main", "master", "develop", "production"],
    Rules := { Disabled := [],
               Parameters := [ ("R020", [("max_commits", ParamValue.vint 3)]),
                               ("R022", [("min_commits", ParamValue.vint 4)]) ] },
    Suppression := { Custom := [] } }

/-- `Config.IsRuleDisabled`: linear scan of the disabled list. -/
def Config.IsRuleDisabled (c : Config) (ruleID : String) : Bool :=
  c.Rules.Disabled.any (fun disabled => disabled == ruleID)

/-- `Config.GetIntParam`: integer parameter with a default fallback. -/
def Config.GetIntParam (c : Config) (ruleID param : String) (defaultVal : Int) : Int :=
  match (c.Rules.Parameters.find? (fun p => p.1 == ruleID)).map (fun p => p.2) with
  | some ps =>
    match (ps.find? (fun p => p.1 == param)).map (fun p => p.2) with
    | some (ParamValue.vint n) => n
    | _ => defaultVal
  | none => defaultVal

namespace ModularRules

/-! The modular, tier-split, configuration-aware catalog
(internal/rules/rules_workflow.go with its dangerous-rules part,
rules_integrity.go, rules_suggestions.go, and the informational rules file). -/

/-- R037 - Force-push to shared branch. -/
def R037 (state : RepoState) : Bool := state.ForcePushToShared

/-- R038 - Rewritten published tags. -/
def R038 (state : RepoState) : Bool := state.RewrittenPublishedTags

/-- R039 - Reset on protected branch. -/
def R039 (state : RepoState) : Bool := state.ResetOnProtectedBranch

/-- R040 - Submodule pointer rewrite without update. -/
def R040 (state : RepoState) : Bool := state.SubmoduleRewriteNoUpdate

/-- R041 - Accidental history rewrite. -/
def R041 (state : RepoState) : Bool := state.AccidentalHistoryRewrite

/-- R021 - Revert Public Commit (beats reset). -/
def R021 (state : RepoState) : Bool := state.LastCommitPushed

/-- R009 - Merge in Progress. -/
def R009 (state : RepoState) : Bool := state.MergeInProgress

/-- R010 - Rebase in Progress. -/
def R010 (state : RepoState) : Bool := state.RebaseInProgress

/-- R011 - Cherry-pick in Progress. -/
def R011 (state : RepoState) : Bool := state.CherryPickInProgress

/-- R001 - Detached HEAD. -/
def R001 (state : RepoState) : Bool := state.OnDetachedHead

/-- R032 - Merge on Protected Branch. -/
def R032 (state : RepoState) : Bool :=
  decide (0 < state.Ahead) && decide (0 < state.Behind) && state.OnProtectedBranch

/-- `DangerousRules(cfg)`: priority 100-90. -/
def DangerousRules (_cfg : Config) : List RuleDef :=
  [ { ID := "R037", Check := R037, Command := "# DO NOT git push --force on shared branches!",
      Description := "Force-push to shared branch - this is how trust dies", Priority := 100 },
    { ID := "R038", Check := R038, Command := "# DO NOT rewrite published tags!",
      Description := "Rewrite published tags - releases are now folklore", Priority := 100 },
    { ID := "R039", Check := R039, Command := "# DO NOT reset on protected branches!",
      Description := "Reset on protected branch - muscle memory is not a justification", Priority := 100 },
    { ID := "R040", Check := R040, Command := "git submodule update --remote",
      Description := "Submodule pointer rewrite without update - builds will fail creatively", Priority := 100 },
    { ID := "R041", Check := R041,
      Command := "# Accidental history rewrite detected - you don't get to pretend this was fine",
      Description := "Rebase or filter-branch after commits pulled by others", Priority := 100 },
    { ID := "R021", Check := R021, Command := "git revert HEAD",
      Description := "Last commit was pushed - use revert instead of reset", Priority := 100 },
    { ID := "R009", Check := R009, Command := "git merge --continue OR git merge --abort",
      Description := "Merge in progress - complete or abort", Priority := 98 },
    { ID := "R010", Check := R010, Command := "git rebase --continue OR git rebase --abort",
      Description := "Rebase in progress - complete or abort", Priority := 97 },
    { ID := "R011", Check := R011, Command := "git cherry-pick --continue OR git cherry-pick --abort",
      Description := "Cherry-pick in progress - complete or abort", Priority := 96 },
    { ID := "R001", Check := R001, Command := "git checkout <branch>",
      Description := "Detached HEAD detected - checkout a branch", Priority := 95 },
    { ID := "R032", Check := R032, Command := "git merge origin/<branch>",
      Description := "Diverged on protected branch - merge instead of rebase", Priority := 90 } ]

/-- R042 - Conflicted files staged. -/
def R042 (state : RepoState) : Bool := state.ConflictedFilesStaged

/-- R043 - Large binaries without LFS. -/
def R043 (state : RepoState) : Bool := state.LargeBinariesWithoutLFS

/-- R044 - Line ending normalization conflict. -/
def R044 (state : RepoState) : Bool := state.LineEndingConflict

/-- R045 - Submodule detached HEAD. -/
def R045 (state : RepoState) : Bool := state.SubmoduleDetachedHead

/-- R046 - Shallow clone doing history ops. -/
def R046 (state : RepoState) : Bool := state.ShallowCloneHistoryOps

/-- R006 - Diverged Branch. -/
def R006 (state : RepoState) : Bool :=
  decide (0 < state.Ahead) && decide (0 < state.Behind)

/-- R034 - No Upstream Configured. -/
def R034 (state : RepoState) : Bool := state.NoUpstream && !state.OnDetachedHead

/-- R031 - Rebase Feature Branch. -/
def R031 (state : RepoState) : Bool :=
  decide (0 < state.Ahead) && decide (0 < state.Behind) && !state.OnProtectedBranch

/-- R035 - Merged Branches Ready for Cleanup. -/
def R035 (state : RepoState) : Bool := decide (0 < state.MergedBranches.length)

/-- R036 - Gone Remote Branches. -/
def R036 (state : RepoState) : Bool := decide (0 < state.GoneBranches.length)

/-- R033 - Existing Merge History. -/
def R033 (state : RepoState) : Bool :=
  state.HasMergeCommits && decide (0 < state.Behind)

/-- `IntegrityRules()`: priority 89-60. -/
def IntegrityRules : List RuleDef :=
  [ { ID := "R042", Check := R042, Command := "# Remove conflict markers from files before committing",
      Description := "Conflicted files staged - if <<<<<<< is in the diff, stop pretending", Priority := 89 },
    { ID := "R043", Check := R043, Command := "git lfs track <pattern> && git add .gitattributes",
      Description := "Binary files changed without LFS - Git is not a landfill", Priority := 85 },
    { ID := "R044", Check := R044, Command := "git config core.autocrlf true (or false)",
      Description := "Line ending normalization conflict - someone's editor declared war", Priority := 82 },
    { ID := "R045", Check := R045, Command := "cd <submodule> && git checkout <branch>",
      Description := "Submodule detached HEAD - time capsule mode engaged", Priority := 81 },
    { ID := "R046", Check := R046, Command := "git fetch --unshallow",
      Description := "Shallow clone doing history ops - Git will lie to you politely", Priority := 80 },
    { ID := "R006", Check := R006, Command := "git rebase origin/<branch> OR git merge origin/<branch>",
      Description := "Branch has diverged - need to sync", Priority := 80 },
    { ID := "R034", Check := R034, Command := "git branch --set-upstream-to=origin/<branch>",
      Description := "No upstream configured for current branch", Priority := 75 },
    { ID := "R031", Check := R031, Command := "git rebase origin/<branch>",
      Description := "Feature branch diverged - rebase to keep linear history", Priority := 70 },
    { ID := "R035", Check := R035, Command := "git branch -d <branch>",
      Description := "Merged branches ready for cleanup", Priority := 65 },
    { ID := "R036", Check := R036, Command := "git branch -d <branch>",
      Description := "Gone remote branches - local cleanup needed", Priority := 62 },
    { ID := "R033", Check := R033, Command := "git merge origin/<branch>",
      Description := "Existing merge commits detected - continue with merge", Priority := 60 } ]

/-- R047 - Work on main instead of feature branch. -/
def R047 (state : RepoState) : Bool := state.WorkOnMainNotFeature

/-- R048 - Long-lived feature branch. -/
def R048 (state : RepoState) : Bool := state.LongLivedFeatureBranch

/-- R049 - Squash recommended before merge. -/
def R049 (state : RepoState) : Bool := state.SquashRecommended

/-- R050 - WIP commit on shared branch. -/
def R050 (state : RepoState) : Bool := state.WIPCommitOnShared

/-- R051 - Rebase recommended instead of merge. -/
def R051 (state : RepoState) : Bool := state.RebaseInsteadOfMerge

/-- R005 - Pull When Behind and Clean. -/
def R005 (state : RepoState) : Bool := decide (0 < state.Behind) && !state.Dirty

/-- R030 - Fast-Forward Pull. -/
def R030 (state : RepoState) : Bool :=
  decide (0 < state.Behind) && decide (state.Ahead = 0) && !state.Dirty

/-- R004 - Push Local Commits. -/
def R004 (state : RepoState) : Bool :=
  decide (0 < state.Ahead) && decide (state.Behind = 0) && !state.Dirty

/-- R020 - Soft Reset Local Commits (parameterised by `max_commits`). -/
def R020 (state : RepoState) (cfg : Config) : Bool :=
  let maxCommits := cfg.GetIntParam "R020" "max_commits" 3
  !state.LastCommitPushed && decide (0 < state.CommitCountSincePush) &&
    decide (state.CommitCountSincePush ≤ maxCommits)

/-- R022 - Too Many Commits to Reset (parameterised by `min_commits`). -/
def R022 (state : RepoState) (cfg : Config) : Bool :=
  let minCommits := cfg.GetIntParam "R022" "min_commits" 4
  !state.LastCommitPushed && decide (minCommits ≤ state.CommitCountSincePush)

/-- R003 - Staged but Not Committed. -/
def R003 (state : RepoState) : Bool := decide (0 < state.StagedFiles)

/-- R002 - Dirty Working Tree. -/
def R002 (state : RepoState) : Bool :=
  decide (0 < state.ModifiedFiles) && decide (state.StagedFiles = 0)

/-- `WorkflowRules(cfg)`: priority 59-30. -/
def WorkflowRules (cfg : Config) : List RuleDef :=
  [ { ID := "R047", Check := R047, Command := "git checkout -b feature/<name>",
      Description := "Work on main instead of feature branch - you skipped the whole process part", Priority := 58 },
    { ID := "R048", Check := R048, Command := "git merge main (or rebase)",
      Description := "Long-lived feature branch - merge debt accumulating interest", Priority := 56 },
    { ID := "R005", Check := R005, Command := "git pull",
      Description := "Behind remote and clean - pull updates", Priority := 55 },
    { ID := "R049", Check := R049, Command := "git rebase -i HEAD~N",
      Description := "Squash recommended before merge - many noisy commits", Priority := 52 },
    { ID := "R050", Check := R050, Command := "git commit --amend",
      Description := "WIP commit on shared branch - this is not your personal notebook", Priority := 51 },
    { ID := "R051", Check := R051, Command := "git rebase main",
      Description := "Rebase recommended instead of merge - keep linear history", Priority := 50 },
    { ID := "R004", Check := R004, Command := "git push",
      Description := "Local commits ready to push", Priority := 50 },
    { ID := "R030", Check := R030, Command := "git pull --ff-only",
      Description := "Can fast-forward - safe to pull", Priority := 48 },
    { ID := "R020", Check := fun state => R020 state cfg, Command := "git reset --soft HEAD~N",
      Description := "Local commits (≤3) can be soft reset", Priority := 45 },
    { ID := "R022", Check := fun state => R022 state cfg, Command := "git rebase -i HEAD~N",
      Description := "Too many local commits - use interactive rebase", Priority := 42 },
    { ID := "R003", Check := R003, Command := "git commit",
      Description := "Staged files waiting for commit", Priority := 38 },
    { ID := "R002", Check := R002, Command := "git add <files> && git commit",
      Description := "Modified files not staged", Priority := 35 } ]

/-- R052 - Commit message quality warning. -/
def R052 (state : RepoState) : Bool := state.PoorCommitMessage

/-- R053 - Amend last commit suggested. -/
def R053 (state : RepoState) : Bool := state.AmendLastCommitSuggested

/-- R054 - Unpushed local tags. -/
def R054 (state : RepoState) : Bool := state.UnpushedLocalTags

/-- R007 - Untracked Files. -/
def R007 (state : RepoState) : Bool := decide (0 < state.UntrackedFiles)

/-- R055 - Stash stack growing. -/
def R055 (state : RepoState) : Bool := state.StashStackGrowing

/-- R008 - Stash Exists. -/
def R008 (state : RepoState) : Bool := state.HasStash

/-- `SuggestionRules()`: priority 29-10. -/
def SuggestionRules : List RuleDef :=
  [ { ID := "R052", Check := R052, Command := "git commit --amend",
      Description := "Commit message quality warning - Git logs are for humans, allegedly", Priority := 25 },
    { ID := "R053", Check := R053, Command := "git commit --amend",
      Description := "Amend last commit suggested - you knew this already", Priority := 23 },
    { ID := "R054", Check := R054, Command := "git push --tags",
      Description := "Unpushed local tags - Schr√∂dinger's release", Priority := 21 },
    { ID := "R007", Check := R007, Command := "git add <files>",
      Description := "Untracked files present", Priority := 20 },
    { ID := "R055", Check := R055, Command := "git stash pop OR git stash clear",
      Description := "Stash stack growing - you're hoarding unfinished thoughts", Priority := 18 },
    { ID := "R008", Check := R008, Command := "git stash pop",
      Description := "Stash exists - consider applying", Priority := 15 } ]

/-- R056 - Repo size growing fast. -/
def R056 (state : RepoState) : Bool := state.RepoSizeGrowingFast

/-- R057 - Inactive branches detected. -/
def R057 (state : RepoState) : Bool := decide (0 < state.InactiveBranches.length)

/-- R058 - Detached HEAD but clean. -/
def R058 (state : RepoState) : Bool := state.OnDetachedHeadClean

/-- `InformationalRules()`: priority below 10. -/
def InformationalRules : List RuleDef :=
  [ { ID := "R056", Check := R056, Command := "git gc --aggressive",
      Description := "Repo size growing unusually fast - just so you're aware", Priority := 9 },
    { ID := "R057", Check := R057, Command := "git branch -d <branch>",
      Description := "Inactive branches detected - archaeology opportunity", Priority := 8 },
    { ID := "R058", Check := R058, Command := "git checkout <branch>",
      Description := "Detached HEAD but clean - nothing wrong, just vibes", Priority := 5 } ]

/-- `AllRules(cfg)` (internal/rules/rules.go): the five tiers concatenated,
dangerous first, informational last. -/
def AllRules (cfg : Config) : List RuleDef :=
  DangerousRules cfg ++ IntegrityRules ++ WorkflowRules cfg ++
    SuggestionRules ++ InformationalRules

end ModularRules

/-- Modelled from the spec: the configuration-aware evaluation entry point.
The control flow of §2 (`Config → catalog construction → Evaluate(Snapshot) →
sorted advice → suppression`) together with §4.1 ("Disabling a rule removes it
entirely from consideration"), §4.2 ("For every enabled RuleDefinition, invoke
its predicate... Sort the resulting list by priority descending [stably]") and
§9 (the modular, configuration-aware catalog is canonical).  This wiring is
missing from `src/`: the engine file there predates the modular catalog — it
calls the parameterless legacy `AllRules()` and never consults
`Config.IsRuleDisabled`, which `src/` declares but never calls.  The catalog
(`ModularRules.AllRules`), `Config.IsRuleDisabled`, the sort and the
suppression pass are embedded from the source; only this composition follows
the spec's words, with the stable sort §9 mandates. -/
def EvaluateWithConfig (cfg : Config) (state : RepoState) : List Advice :=
  applySuppression (sortByPriority
    (((ModularRules.AllRules cfg).filter
        (fun r => !cfg.IsRuleDisabled r.ID && r.Check state)).map toAdvice))

/-! ### Proof infrastructure: an accumulator formulation of the suppression pass

`applySuppression` updates the tail eagerly at each step.  For reasoning it is
convenient to apply the collected suppression actions lazily instead: walk the
list with the list `acc` of `(command key, suppression set)` pairs of the
entries that were active at their turn so far, and apply them to each entry as
it is reached.  `suppressionAux_spec` below proves the two formulations equal. -/

/-- `mark cmd a`: the two-field write the inner loop performs on a matching
entry. -/
def mark (cmd : String) (a : Advice) : Advice :=
  { a with Suppressed := true,
           Reason := "Suppressed by " ++ cmd ++ " (higher priority)" }

/-- Apply a list of pending suppression actions to one advice, oldest first
(matching ones overwrite, as the inner loop does). -/
def applyAcc (acc : List (String × List String)) (a : Advice) : Advice :=
  acc.foldl (fun x p => suppressOne p.1 p.2 x) a

/-- The accumulator formulation of the suppression pass. -/
def suppressionAux : List (String × List String) → List Advice → List Advice
  | _, [] => []
  | acc, a :: rest =>
    let a' := applyAcc acc a
    if a'.Suppressed then a' :: suppressionAux acc rest
    else
      match suppressesLookup (extractCommand a'.Command) with
      | some targets =>
          a' :: suppressionAux (acc ++ [(extractCommand a'.Command, targets)]) rest
      | none => a' :: suppressionAux acc rest

/-- The action list in force when the suppression pass reaches position `n`
(starting from actions `acc`): `acc` extended by one pair per earlier entry
that is active at its turn and has its command key in the table. -/
def accAt : List (String × List String) → List Advice → Nat → List (String × List String)
  | acc, _, 0 => acc
  | acc, [], _ + 1 => acc
  | acc, a :: rest, n + 1 =>
    let a' := applyAcc acc a
    if a'.Suppressed then accAt acc rest n
    else
      match suppressesLookup (extractCommand a'.Command) with
      | some targets => accAt (acc ++ [(extractCommand a'.Command, targets)]) rest n
      | none => accAt acc rest n

/-- The last action of `acc` whose suppression set contains `a`'s command key —
the one whose write survives, since later matching actions overwrite earlier
ones. -/
def lastMatch (acc : List (String × List String)) (a : Advice) : Option (String × List String) :=
  acc.reverse.find? (fun p => decide (extractCommand a.Command ∈ p.2))

/-- The fields of an advice that the suppression pass never writes. -/
def keyFields (a : Advice) : String × String × String × Int :=
  (a.RuleID, a.Command, a.Description, a.Priority)

/-- Position of a rule identifier in the (monolithic) catalog's enumeration
order. -/
def catalogIdx (id : String) : Nat :=
  List.indexOf id (LegacyRules.AllRules.map (fun r => r.ID))

/-! ### Concrete inputs used by scenario theorems, counterexamples and
witnesses -/

/-- Scenario B snapshot: `MergeInProgress=true, Ahead=1, Behind=0, Dirty=false`,
everything else zero. -/
def scenarioB : RepoState := { MergeInProgress := true, Ahead := 1 }

/-- Scenario C snapshot: `ForcePushToShared=true, ResetOnProtectedBranch=true`,
everything else zero. -/
def scenarioC : RepoState := { ForcePushToShared := true, ResetOnProtectedBranch := true }

/-- A snapshot with a merge and a rebase simultaneously in progress (both flags
are independent booleans in `RepoState`) and one unpushed commit: it triggers
R009, R010 and R004, and both continuation rules' suppression sets contain
`"push"`. -/
def doubleOpState : RepoState :=
  { MergeInProgress := true, RebaseInProgress := true, Ahead := 1 }

/-- The default configuration with rule R004 (push) disabled. -/
def cfgDisabledPush : Config :=
  { Config.Defaults with
      Rules := { Config.Defaults.Rules with Disabled := ["R004"] } }

/-- The advice list that reaches the suppression pass for `doubleOpState`
(already sorted: 98, 97, 50). -/
def doubleOpAdvice : List Advice :=
  [ { RuleID := "R009", Command := "git merge --continue OR git merge --abort",
      Description := "Merge in progress - complete or abort", Priority := 98,
      Suppressed := false, Reason := "" },
    { RuleID := "R010", Command := "git rebase --continue OR git rebase --abort",
      Description := "Rebase in progress - complete or abort", Priority := 97,
      Suppressed := false, Reason := "" },
    { RuleID := "R004", Command := "git push",
      Description := "Local commits ready to push", Priority := 50,
      Suppressed := false, Reason := "" } ]

/-- A soft-reset advice (command key `"reset"`, whose suppression set is
`["commit"]`) followed by the R002 advice (compound command whose key is
`"commit"`), as they occur sorted in an evaluation where both trigger. -/
def resetCommitAdvice : List Advice :=
  [ { RuleID := "R020", Command := "git reset --soft HEAD~N",
      Description := "Local commits (≤3) can be soft reset", Priority := 45,
      Suppressed := false, Reason := "" },
    { RuleID := "R002", Command := "git add <files> && git commit",
      Description := "Modified files not staged", Priority := 35,
      Suppressed := false, Reason := "" } ]

/-! ## Helper lemmas -/

theorem suppressOne_eq (cmd : String) (targets : List String) (a : Advice) :
    suppressOne cmd targets a =
      if extractCommand a.Command ∈ targets then mark cmd a else a := rfl

theorem mark_keyFields (cmd : String) (a : Advice) : keyFields (mark cmd a) = keyFields a := rfl

theorem mark_Command (cmd : String) (a : Advice) : (mark cmd a).Command = a.Command := rfl

theorem mark_Suppressed (cmd : String) (a : Advice) : (mark cmd a).Suppressed = true := rfl

theorem mark_mark (c d : String) (a : Advice) : mark c (mark d a) = mark c a := rfl

theorem suppressOne_keyFields (cmd : String) (targets : List String) (a : Advice) :
    keyFields (suppressOne cmd targets a) = keyFields a := by
  rw [suppressOne_eq]
  split <;> rfl

theorem suppressOne_Command (cmd : String) (targets : List String) (a : Advice) :
    (suppressOne cmd targets a).Command = a.Command := by
  rw [suppressOne_eq]
  split <;> rfl

theorem applyAcc_nil (a : Advice) : applyAcc [] a = a := rfl

theorem applyAcc_cons (p : String × List String) (acc : List (String × List String))
    (a : Advice) : applyAcc (p :: acc) a = applyAcc acc (suppressOne p.1 p.2 a) := rfl

theorem applyAcc_snoc (acc : List (String × List String)) (p : String × List String)
    (a : Advice) : applyAcc (acc ++ [p]) a = suppressOne p.1 p.2 (applyAcc acc a) := by
  simp [applyAcc, List.foldl_append]

theorem applyAcc_keyFields (acc : List (String × List String)) (a : Advice) :
    keyFields (applyAcc acc a) = keyFields a := by
  induction acc generalizing a with
  | nil => rfl
  | cons p acc ih => rw [applyAcc_cons, ih, suppressOne_keyFields]

theorem applyAcc_Command (acc : List (String × List String)) (a : Advice) :
    (applyAcc acc a).Command = a.Command := by
  have h := applyAcc_keyFields acc a
  simp only [keyFields, Prod.mk.injEq] at h
  exact h.2.1

theorem lastMatch_congr (acc : List (String × List String)) {a b : Advice}
    (h : a.Command = b.Command) : lastMatch acc a = lastMatch acc b := by
  simp only [lastMatch, h]

/-- `suppressOne` in terms of `mark`. -/
theorem suppressOne_of_mem {cmd : String} {targets : List String} {a : Advice}
    (h : extractCommand a.Command ∈ targets) :
    suppressOne cmd targets a = mark cmd a := by
  rw [suppressOne_eq, if_pos h]

theorem suppressOne_of_not_mem {cmd : String} {targets : List String} {a : Advice}
    (h : extractCommand a.Command ∉ targets) :
    suppressOne cmd targets a = a := by
  rw [suppressOne_eq, if_neg h]

theorem lastMatch_snoc (acc : List (String × List String)) (p : String × List String)
    (a : Advice) :
    lastMatch (acc ++ [p]) a =
      if extractCommand a.Command ∈ p.2 then some p else lastMatch acc a := by
  by_cases hin : extractCommand a.Command ∈ p.2
  · simp [lastMatch, List.reverse_append, List.find?_cons_of_pos, hin]
  · simp [lastMatch, List.reverse_append, List.find?_cons_of_neg, hin]

/-- Characterization of `applyAcc`: only the last matching action's write
survives. -/
theorem applyAcc_char (acc : List (String × List String)) (a : Advice) :
    applyAcc acc a = (lastMatch acc a).elim a (fun p => mark p.1 a) := by
  induction acc using List.reverseRecOn with
  | nil => rfl
  | append_singleton acc p ih =>
    rw [applyAcc_snoc, ih, lastMatch_snoc]
    by_cases hin : extractCommand a.Command ∈ p.2
    · rw [if_pos hin]
      rcases lastMatch acc a with _ | q
      · exact suppressOne_of_mem hin
      · show suppressOne p.1 p.2 (mark q.1 a) = mark p.1 a
        have : extractCommand (mark q.1 a).Command ∈ p.2 := by rw [mark_Command]; exact hin
        rw [suppressOne_of_mem this, mark_mark]
    · rw [if_neg hin]
      rcases lastMatch acc a with _ | q
      · exact suppressOne_of_not_mem hin
      · show suppressOne p.1 p.2 (mark q.1 a) = mark q.1 a
        have : extractCommand (mark q.1 a).Command ∉ p.2 := by rw [mark_Command]; exact hin
        rw [suppressOne_of_not_mem this]

theorem applyAcc_idem (acc : List (String × List String)) (a : Advice) :
    applyAcc acc (applyAcc acc a) = applyAcc acc a := by
  have hcmd : (applyAcc acc a).Command = a.Command := applyAcc_Command ..
  rw [applyAcc_char acc (applyAcc acc a), lastMatch_congr acc hcmd, applyAcc_char acc a]
  rcases lastMatch acc a with _ | p
  · rfl
  · simp [Option.elim, mark_mark]


theorem applyAcc_flag_mono {acc : List (String × List String)} {a : Advice}
    (h : a.Suppressed = true) : (applyAcc acc a).Suppressed = true := by
  rw [applyAcc_char]
  rcases lastMatch acc a with _ | p
  · exact h
  · rfl

theorem applyAcc_suppressed_of_match {acc : List (String × List String)}
    {p : String × List String} {a : Advice} (hp : p ∈ acc)
    (hin : extractCommand a.Command ∈ p.2) : (applyAcc acc a).Suppressed = true := by
  rw [applyAcc_char]
  rcases hm : lastMatch acc a with _ | q
  · exfalso
    rw [lastMatch, List.find?_eq_none] at hm
    exact (hm p (List.mem_reverse.mpr hp)) (by simpa using hin)
  · rfl

theorem suppressionAux_nil (acc : List (String × List String)) :
    suppressionAux acc [] = [] := rfl

theorem suppressionAux_cons_suppressed {acc : List (String × List String)} {a : Advice}
    (rest : List Advice) (h : (applyAcc acc a).Suppressed = true) :
    suppressionAux acc (a :: rest) = applyAcc acc a :: suppressionAux acc rest := by
  simp only [suppressionAux, h, if_true]

theorem suppressionAux_cons_some {acc : List (String × List String)} {a : Advice}
    {targets : List String} (rest : List Advice)
    (h1 : (applyAcc acc a).Suppressed = false)
    (h2 : suppressesLookup (extractCommand (applyAcc acc a).Command) = some targets) :
    suppressionAux acc (a :: rest) =
      applyAcc acc a ::
        suppressionAux (acc ++ [(extractCommand (applyAcc acc a).Command, targets)]) rest := by
  simp only [suppressionAux, h1, h2, Bool.false_eq_true, if_false]

theorem suppressionAux_cons_none {acc : List (String × List String)} {a : Advice}
    (rest : List Advice) (h1 : (applyAcc acc a).Suppressed = false)
    (h2 : suppressesLookup (extractCommand (applyAcc acc a).Command) = none) :
    suppressionAux acc (a :: rest) = applyAcc acc a :: suppressionAux acc rest := by
  simp only [suppressionAux, h1, h2, Bool.false_eq_true, if_false]

theorem accAt_zero (acc : List (String × List String)) (l : List Advice) :
    accAt acc l 0 = acc := by cases l <;> rfl

theorem accAt_nil (acc : List (String × List String)) (n : Nat) :
    accAt acc [] n = acc := by cases n <;> rfl

theorem accAt_cons_suppressed {acc : List (String × List String)} {a : Advice}
    (rest : List Advice) (n : Nat) (h : (applyAcc acc a).Suppressed = true) :
    accAt acc (a :: rest) (n + 1) = accAt acc rest n := by
  simp only [accAt, h, if_true]

theorem accAt_cons_some {acc : List (String × List String)} {a : Advice}
    {targets : List String} (rest : List Advice) (n : Nat)
    (h1 : (applyAcc acc a).Suppressed = false)
    (h2 : suppressesLookup (extractCommand (applyAcc acc a).Command) = some targets) :
    accAt acc (a :: rest) (n + 1) =
      accAt (acc ++ [(extractCommand (applyAcc acc a).Command, targets)]) rest n := by
  simp only [accAt, h1, h2, Bool.false_eq_true, if_false]

theorem accAt_cons_none {acc : List (String × List String)} {a : Advice}
    (rest : List Advice) (n : Nat) (h1 : (applyAcc acc a).Suppressed = false)
    (h2 : suppressesLookup (extractCommand (applyAcc acc a).Command) = none) :
    accAt acc (a :: rest) (n + 1) = accAt acc rest n := by
  simp only [accAt, h1, h2, Bool.false_eq_true, if_false]

theorem suppressTail_map_applyAcc (c : String) (targets : List String)
    (acc : List (String × List String)) (l : List Advice) :
    suppressTail c targets (l.map (applyAcc acc)) =
      l.map (applyAcc (acc ++ [(c, targets)])) := by
  rw [suppressTail, List.map_map]
  refine List.map_congr_left (fun a _ => ?_)
  exact (applyAcc_snoc acc (c, targets) a).symm

/-- The eager engine pass applied after eagerly performing the pending actions
`acc` coincides with the accumulator formulation. -/
theorem applySuppressionFuel_spec :
    ∀ (l : List Advice) (acc : List (String × List String)) (n : Nat),
      l.length ≤ n →
      applySuppressionFuel n (l.map (applyAcc acc)) = suppressionAux acc l := by
  intro l
  induction l with
  | nil => intro acc n _; cases n <;> rfl
  | cons a rest ih =>
    intro acc n hn
    cases n with
    | zero => simp at hn
    | succ m =>
      have hm : rest.length ≤ m := by simpa using hn
      rw [List.map_cons]
      by_cases hs : (applyAcc acc a).Suppressed
      · rw [suppressionAux_cons_suppressed rest hs]
        simp only [applySuppressionFuel, hs, if_true]
        rw [ih acc m hm]
      · rcases hl : suppressesLookup (extractCommand (applyAcc acc a).Command) with _ | targets
        · rw [suppressionAux_cons_none rest (by simpa using hs) hl]
          simp only [applySuppressionFuel, hs, Bool.false_eq_true, if_false, hl]
          rw [ih acc m hm]
        · rw [suppressionAux_cons_some rest (by simpa using hs) hl]
          simp only [applySuppressionFuel, hs, Bool.false_eq_true, if_false, hl]
          rw [suppressTail_map_applyAcc, ih _ m hm]

theorem applySuppression_eq_suppressionAux (l : List Advice) :
    applySuppression l = suppressionAux [] l := by
  have hmap : l.map (applyAcc []) = l := by
    have h1 : l.map (applyAcc []) = l.map id := List.map_congr_left (fun a _ => applyAcc_nil a)
    rw [h1, List.map_id]
  have h := applySuppressionFuel_spec l [] l.length le_rfl
  rw [hmap] at h
  exact h

theorem length_suppressionAux :
    ∀ (l : List Advice) (acc : List (String × List String)),
      (suppressionAux acc l).length = l.length := by
  intro l
  induction l with
  | nil => intro acc; rfl
  | cons a rest ih =>
    intro acc
    by_cases hs : (applyAcc acc a).Suppressed
    · rw [suppressionAux_cons_suppressed rest hs, List.length_cons, ih, List.length_cons]
    · rcases hl : suppressesLookup (extractCommand (applyAcc acc a).Command) with _ | targets
      · rw [suppressionAux_cons_none rest (by simpa using hs) hl, List.length_cons, ih,
          List.length_cons]
      · rw [suppressionAux_cons_some rest (by simpa using hs) hl, List.length_cons, ih,
          List.length_cons]

theorem suppressionAux_map_keyFields :
    ∀ (l : List Advice) (acc : List (String × List String)),
      (suppressionAux acc l).map keyFields = l.map keyFields := by
  intro l
  induction l with
  | nil => intro acc; rfl
  | cons a rest ih =>
    intro acc
    by_cases hs : (applyAcc acc a).Suppressed
    · rw [suppressionAux_cons_suppressed rest hs, List.map_cons, ih, applyAcc_keyFields,
        List.map_cons]
    · rcases hl : suppressesLookup (extractCommand (applyAcc acc a).Command) with _ | targets
      · rw [suppressionAux_cons_none rest (by simpa using hs) hl, List.map_cons, ih,
          applyAcc_keyFields, List.map_cons]
      · rw [suppressionAux_cons_some rest (by simpa using hs) hl, List.map_cons, ih,
          applyAcc_keyFields, List.map_cons]

theorem suppressionAux_getD :
    ∀ (l : List Advice) (acc : List (String × List String)) (n : Nat),
      n < l.length →
      (suppressionAux acc l).getD n dummyAdvice =
        applyAcc (accAt acc l n) (l.getD n dummyAdvice) := by
  intro l
  induction l with
  | nil => intro acc n hn; simp at hn
  | cons a rest ih =>
    intro acc n hn
    by_cases hs : (applyAcc acc a).Suppressed
    · rw [suppressionAux_cons_suppressed rest hs]
      cases n with
      | zero => rw [accAt_zero]; rfl
      | succ m =>
        rw [accAt_cons_suppressed rest m hs]
        exact ih acc m (by simpa using hn)
    · rcases hl : suppressesLookup (extractCommand (applyAcc acc a).Command) with _ | targets
      · rw [suppressionAux_cons_none rest (by simpa using hs) hl]
        cases n with
        | zero => rw [accAt_zero]; rfl
        | succ m =>
          rw [accAt_cons_none rest m (by simpa using hs) hl]
          exact ih acc m (by simpa using hn)
      · rw [suppressionAux_cons_some rest (by simpa using hs) hl]
        cases n with
        | zero => rw [accAt_zero]; rfl
        | succ m =>
          rw [accAt_cons_some rest m (by simpa using hs) hl]
          exact ih _ m (by simpa using hn)

theorem suppressionAux_idem :
    ∀ (l : List Advice) (acc : List (String × List String)),
      suppressionAux acc (suppressionAux acc l) = suppressionAux acc l := by
  intro l
  induction l with
  | nil => intro acc; rfl
  | cons a rest ih =>
    intro acc
    by_cases hs : (applyAcc acc a).Suppressed
    · rw [suppressionAux_cons_suppressed rest hs]
      have hs2 : (applyAcc acc (applyAcc acc a)).Suppressed = true := by
        rw [applyAcc_idem]; exact hs
      rw [suppressionAux_cons_suppressed _ hs2, applyAcc_idem, ih]
    · have hs' : (applyAcc acc a).Suppressed = false := by simpa using hs
      rcases hl : suppressesLookup (extractCommand (applyAcc acc a).Command) with _ | targets
      · rw [suppressionAux_cons_none rest hs' hl]
        have hs2 : (applyAcc acc (applyAcc acc a)).Suppressed = false := by
          rw [applyAcc_idem]; exact hs'
        have hl2 : suppressesLookup
            (extractCommand (applyAcc acc (applyAcc acc a)).Command) = none := by
          rw [applyAcc_idem]; exact hl
        rw [suppressionAux_cons_none _ hs2 hl2, applyAcc_idem, ih]
      · rw [suppressionAux_cons_some rest hs' hl]
        have hs2 : (applyAcc acc (applyAcc acc a)).Suppressed = false := by
          rw [applyAcc_idem]; exact hs'
        have hl2 : suppressesLookup
            (extractCommand (applyAcc acc (applyAcc acc a)).Command) = some targets := by
          rw [applyAcc_idem]; exact hl
        rw [suppressionAux_cons_some _ hs2 hl2, applyAcc_idem, ih]

theorem suppressionAux_flag_mono :
    ∀ (l : List Advice) (acc : List (String × List String)),
      List.Forall₂ (fun a b => a.Suppressed = true → b.Suppressed = true) l
        (suppressionAux acc l) := by
  intro l
  induction l with
  | nil => intro acc; exact List.Forall₂.nil
  | cons a rest ih =>
    intro acc
    by_cases hs : (applyAcc acc a).Suppressed
    · rw [suppressionAux_cons_suppressed rest hs]
      exact List.Forall₂.cons (fun _ => hs) (ih acc)
    · rcases hl : suppressesLookup (extractCommand (applyAcc acc a).Command) with _ | targets
      · rw [suppressionAux_cons_none rest (by simpa using hs) hl]
        exact List.Forall₂.cons (fun h => applyAcc_flag_mono h) (ih acc)
      · rw [suppressionAux_cons_some rest (by simpa using hs) hl]
        exact List.Forall₂.cons (fun h => applyAcc_flag_mono h) (ih _)

theorem mem_accAt_of_mem :
    ∀ (l : List Advice) (acc : List (String × List String)) (n : Nat)
      (p : String × List String), p ∈ acc → p ∈ accAt acc l n := by
  intro l
  induction l with
  | nil => intro acc n p hp; rw [accAt_nil]; exact hp
  | cons a rest ih =>
    intro acc n p hp
    cases n with
    | zero => rw [accAt_zero]; exact hp
    | succ m =>
      by_cases hs : (applyAcc acc a).Suppressed
      · rw [accAt_cons_suppressed rest m hs]; exact ih acc m p hp
      · rcases hl : suppressesLookup (extractCommand (applyAcc acc a).Command) with _ | targets
        · rw [accAt_cons_none rest m (by simpa using hs) hl]; exact ih acc m p hp
        · rw [accAt_cons_some rest m (by simpa using hs) hl]
          exact ih _ m p (List.mem_append_left _ hp)

theorem accAt_mono :
    ∀ (l : List Advice) (acc : List (String × List String)) (i j : Nat)
      (p : String × List String), i ≤ j → p ∈ accAt acc l i → p ∈ accAt acc l j := by
  intro l
  induction l with
  | nil => intro acc i j p _ hp; rw [accAt_nil]; rw [accAt_nil] at hp; exact hp
  | cons a rest ih =>
    intro acc i j p hij hp
    cases i with
    | zero =>
      rw [accAt_zero] at hp
      exact mem_accAt_of_mem (a :: rest) acc j p hp
    | succ i' =>
      cases j with
      | zero => omega
      | succ j' =>
        have hij' : i' ≤ j' := by omega
        by_cases hs : (applyAcc acc a).Suppressed
        · rw [accAt_cons_suppressed rest j' hs]
          rw [accAt_cons_suppressed rest i' hs] at hp
          exact ih acc i' j' p hij' hp
        · rcases hl : suppressesLookup (extractCommand (applyAcc acc a).Command) with _ | targets
          · rw [accAt_cons_none rest j' (by simpa using hs) hl]
            rw [accAt_cons_none rest i' (by simpa using hs) hl] at hp
            exact ih acc i' j' p hij' hp
          · rw [accAt_cons_some rest j' (by simpa using hs) hl]
            rw [accAt_cons_some rest i' (by simpa using hs) hl] at hp
            exact ih _ i' j' p hij' hp

/-- If the entry at position `n` is unsuppressed at its turn and its command key
is in the table, its action is among the actions in force from position `n + 1`
on. -/
theorem accAt_succ_mem :
    ∀ (l : List Advice) (acc : List (String × List String)) (n : Nat)
      (targets : List String), n < l.length →
      (applyAcc (accAt acc l n) (l.getD n dummyAdvice)).Suppressed = false →
      suppressesLookup (extractCommand (l.getD n dummyAdvice).Command) = some targets →
      (extractCommand (l.getD n dummyAdvice).Command, targets) ∈ accAt acc l (n + 1) := by
  intro l
  induction l with
  | nil => intro acc n targets hn; simp at hn
  | cons a rest ih =>
    intro acc n targets hn hflag hlook
    cases n with
    | zero =>
      simp only [List.getD_cons_zero] at hflag hlook ⊢
      rw [accAt_zero] at hflag
      have hcmd : extractCommand (applyAcc acc a).Command = extractCommand a.Command := by
        rw [applyAcc_Command]
      have hlook' : suppressesLookup (extractCommand (applyAcc acc a).Command)
          = some targets := by
        rw [hcmd]
        exact hlook
      rw [accAt_cons_some rest 0 hflag hlook', accAt_zero, hcmd]
      exact List.mem_append_right _ (List.mem_singleton.mpr rfl)
    | succ m =>
      simp only [List.getD_cons_succ] at hflag hlook ⊢
      have hm : m < rest.length := by simpa using hn
      by_cases hs : (applyAcc acc a).Suppressed
      · rw [accAt_cons_suppressed rest (m + 1) hs]
        rw [accAt_cons_suppressed rest m hs] at hflag
        exact ih acc m targets hm hflag hlook
      · rcases hl : suppressesLookup (extractCommand (applyAcc acc a).Command) with _ | t0
        · rw [accAt_cons_none rest (m + 1) (by simpa using hs) hl]
          rw [accAt_cons_none rest m (by simpa using hs) hl] at hflag
          exact ih acc m targets hm hflag hlook
        · rw [accAt_cons_some rest (m + 1) (by simpa using hs) hl]
          rw [accAt_cons_some rest m (by simpa using hs) hl] at hflag
          exact ih _ m targets hm hflag hlook

theorem suppresses_key_ne_empty {c : String} {t : List String}
    (h : suppressesLookup c = some t) : ¬(c = "") := by
  rw [suppressesLookup] at h
  rcases hf : Suppresses.find? (fun p => p.1 == c) with _ | pr
  · rw [hf] at h; simp at h
  · have hbeq := List.find?_some hf
    have hc : pr.1 = c := by simpa using hbeq
    have hmem := List.mem_of_find?_eq_some hf
    have hne : ∀ p ∈ Suppresses, ¬(p.1 = "") := by decide
    exact hc ▸ hne pr hmem

theorem reason_ne_empty (c : String) :
    ¬("Suppressed by " ++ c ++ " (higher priority)" = "") := by
  intro h
  have hd := congrArg String.data h
  simp [String.data_append] at hd

/-- Invariant of the pass: with all initial entries active with empty reasons
and all pending actions drawn from the table, every output entry has an empty
reason exactly when it is unsuppressed, and a suppressed entry's reason names
a table key. -/
theorem suppressionAux_invariant :
    ∀ (l : List Advice) (acc : List (String × List String)),
      (∀ p ∈ acc, suppressesLookup p.1 = some p.2) →
      (∀ a ∈ l, a.Suppressed = false ∧ a.Reason = "") →
      ∀ b ∈ suppressionAux acc l,
        (b.Reason = "" ↔ b.Suppressed = false) ∧
        (b.Suppressed = true →
          ∃ c, (suppressesLookup c).isSome = true ∧
            b.Reason = "Suppressed by " ++ c ++ " (higher priority)" ∧ ¬(c = "")) := by
  intro l
  induction l with
  | nil => intro acc _ _ b hb; simp [suppressionAux_nil] at hb
  | cons a rest ih =>
    intro acc hacc hl b hb
    have ha := hl a (List.mem_cons_self a rest)
    have hrest : ∀ x ∈ rest, x.Suppressed = false ∧ x.Reason = "" :=
      fun x hx => hl x (List.mem_cons_of_mem a hx)
    -- the property for the head entry
    have hheadprop :
        ((applyAcc acc a).Reason = "" ↔ (applyAcc acc a).Suppressed = false) ∧
        ((applyAcc acc a).Suppressed = true →
          ∃ c, (suppressesLookup c).isSome = true ∧
            (applyAcc acc a).Reason = "Suppressed by " ++ c ++ " (higher priority)" ∧
            ¬(c = "")) := by
      rw [applyAcc_char]
      rcases hm : lastMatch acc a with _ | p
      · constructor
        · simp [Option.elim, ha.1, ha.2]
        · simp [Option.elim, ha.1]
      · have hpmem : p ∈ acc := by
          have := List.mem_of_find?_eq_some hm
          exact List.mem_reverse.mp this
        have hpl := hacc p hpmem
        constructor
        · simp only [Option.elim, mark]
          constructor
          · intro habs; exact absurd habs (reason_ne_empty p.1)
          · intro habs; exact absurd habs (by simp)
        · intro _
          refine ⟨p.1, by rw [hpl]; rfl, rfl, suppresses_key_ne_empty hpl⟩
    by_cases hs : (applyAcc acc a).Suppressed
    · rw [suppressionAux_cons_suppressed rest hs] at hb
      rcases List.mem_cons.mp hb with hb | hb
      · exact hb ▸ hheadprop
      · exact ih acc hacc hrest b hb
    · rcases hlk : suppressesLookup (extractCommand (applyAcc acc a).Command) with _ | targets
      · rw [suppressionAux_cons_none rest (by simpa using hs) hlk] at hb
        rcases List.mem_cons.mp hb with hb | hb
        · exact hb ▸ hheadprop
        · exact ih acc hacc hrest b hb
      · rw [suppressionAux_cons_some rest (by simpa using hs) hlk] at hb
        rcases List.mem_cons.mp hb with hb | hb
        · exact hb ▸ hheadprop
        · refine ih _ ?_ hrest b hb
          intro p hp
          rcases List.mem_append.mp hp with hp | hp
          · exact hacc p hp
          · rw [List.mem_singleton.mp hp]
            exact hlk

/-! ### The catalog order and the sort -/

theorem legacy_catalog_priorities_strict :
    LegacyRules.AllRules.Pairwise (fun r₁ r₂ => r₂.Priority < r₁.Priority) := by
  have h : (LegacyRules.AllRules.map (fun r => r.Priority)).Pairwise
      (fun x y => y < x) := by decide
  exact List.pairwise_map.mp h

theorem rawAdvice_pairwise (s : RepoState) :
    (rawAdvice LegacyRules.AllRules s).Pairwise (fun a b => b.Priority < a.Priority) := by
  rw [rawAdvice, List.pairwise_map]
  exact List.Pairwise.sublist (List.filter_sublist _) legacy_catalog_priorities_strict

theorem sortByPriority_of_pairwise {l : List Advice}
    (h : l.Pairwise (fun a b => b.Priority < a.Priority)) : sortByPriority l = l := by
  refine List.Sorted.insertionSort_eq ?_
  exact h.imp (fun hab => le_of_lt hab)

theorem evaluate_eq_applySuppression (s : RepoState) :
    Evaluate s = applySuppression (rawAdvice LegacyRules.AllRules s) := by
  rw [Evaluate, sortByPriority_of_pairwise (rawAdvice_pairwise s)]

theorem keyFields_applySuppression (l : List Advice) :
    (applySuppression l).map keyFields = l.map keyFields := by
  rw [applySuppression_eq_suppressionAux]
  exact suppressionAux_map_keyFields l []

theorem priority_map_applySuppression (l : List Advice) :
    (applySuppression l).map (fun a => a.Priority) = l.map (fun a => a.Priority) := by
  have h := keyFields_applySuppression l
  have h1 : (applySuppression l).map (fun a => a.Priority) =
      ((applySuppression l).map keyFields).map (fun q => q.2.2.2) := by
    rw [List.map_map]; rfl
  rw [h1, h, List.map_map]; rfl

theorem ruleID_map_applySuppression (l : List Advice) :
    (applySuppression l).map (fun a => a.RuleID) = l.map (fun a => a.RuleID) := by
  have h := keyFields_applySuppression l
  have h1 : (applySuppression l).map (fun a => a.RuleID) =
      ((applySuppression l).map keyFields).map (fun q => q.1) := by
    rw [List.map_map]; rfl
  rw [h1, h, List.map_map]; rfl

theorem applySuppression_getD (l : List Advice) (n : Nat) (h : n < l.length) :
    (applySuppression l).getD n dummyAdvice =
      applyAcc (accAt [] l n) (l.getD n dummyAdvice) := by
  rw [applySuppression_eq_suppressionAux]
  exact suppressionAux_getD l [] n h

theorem length_applySuppression (l : List Advice) :
    (applySuppression l).length = l.length := by
  rw [applySuppression_eq_suppressionAux]
  exact length_suppressionAux l []

theorem keyFields_eq {a b : Advice} (h : keyFields a = keyFields b) :
    a.RuleID = b.RuleID ∧ a.Command = b.Command ∧ a.Description = b.Description ∧
      a.Priority = b.Priority := by
  simpa [keyFields, Prod.ext_iff] using h

/-- Every action in force at position `n` (beyond the initial ones) originates
from an earlier entry that was unsuppressed at its turn and whose command key
is in the table. -/
theorem accAt_mem_source :
    ∀ (l : List Advice) (acc : List (String × List String)) (n : Nat)
      (p : String × List String), p ∈ accAt acc l n →
      p ∈ acc ∨ ∃ m, m < n ∧ m < l.length ∧
        (applyAcc (accAt acc l m) (l.getD m dummyAdvice)).Suppressed = false ∧
        p.1 = extractCommand (l.getD m dummyAdvice).Command ∧
        suppressesLookup p.1 = some p.2 := by
  intro l
  induction l with
  | nil => intro acc n p hp; rw [accAt_nil] at hp; exact Or.inl hp
  | cons a rest ih =>
    intro acc n p hp
    cases n with
    | zero => rw [accAt_zero] at hp; exact Or.inl hp
    | succ q =>
      by_cases hs : (applyAcc acc a).Suppressed
      · rw [accAt_cons_suppressed rest q hs] at hp
        rcases ih acc q p hp with h | ⟨m, hm1, hm2, hm3, hm4, hm5⟩
        · exact Or.inl h
        · refine Or.inr ⟨m + 1, by omega, by simpa using hm2, ?_, ?_, hm5⟩
          · rw [accAt_cons_suppressed rest m hs, List.getD_cons_succ]
            exact hm3
          · rw [List.getD_cons_succ]
            exact hm4
      · have hs' : (applyAcc acc a).Suppressed = false := by simpa using hs
        rcases hl : suppressesLookup (extractCommand (applyAcc acc a).Command) with _ | t
        · rw [accAt_cons_none rest q hs' hl] at hp
          rcases ih acc q p hp with h | ⟨m, hm1, hm2, hm3, hm4, hm5⟩
          · exact Or.inl h
          · refine Or.inr ⟨m + 1, by omega, by simpa using hm2, ?_, ?_, hm5⟩
            · rw [accAt_cons_none rest m hs' hl, List.getD_cons_succ]
              exact hm3
            · rw [List.getD_cons_succ]
              exact hm4
        · rw [accAt_cons_some rest q hs' hl] at hp
          rcases ih _ q p hp with h | ⟨m, hm1, hm2, hm3, hm4, hm5⟩
          · rcases List.mem_append.mp h with h | h
            · exact Or.inl h
            · have hp0 := List.mem_singleton.mp h
              refine Or.inr ⟨0, by omega, by simp, ?_, ?_, ?_⟩
              · rw [accAt_zero, List.getD_cons_zero]
                exact hs'
              · rw [hp0, List.getD_cons_zero]
                exact applyAcc_Command acc a ▸ rfl
              · rw [hp0]
                exact hl
          · refine Or.inr ⟨m + 1, by omega, by simpa using hm2, ?_, ?_, hm5⟩
            · rw [accAt_cons_some rest m hs' hl, List.getD_cons_succ]
              exact hm3
            · rw [List.getD_cons_succ]
              exact hm4

/-! ## Claim theorems -/

/-- C7: the suppression resolver is idempotent on its own output: running the
pass a second time on the result of the first pass suppresses no additional
entry and changes no suppressed flag or reason string, for every ordered
advice list. -/
theorem applySuppression_idempotent (l : List Advice) :
    applySuppression (applySuppression l) = applySuppression l := by
  rw [applySuppression_eq_suppressionAux l,
    applySuppression_eq_suppressionAux (suppressionAux [] l), suppressionAux_idem]

/-- C8: frame property of the suppression pass.  For every input list the pass
preserves the length and, entry by entry, the rule identifier, command,
description and priority; since `Advice` has exactly these four fields plus the
suppressed flag and the reason, only the latter two can be written. -/
theorem applySuppression_frame (l : List Advice) :
    (applySuppression l).length = l.length ∧
    ∀ n : Nat, n < l.length →
      ((applySuppression l).getD n dummyAdvice).RuleID = (l.getD n dummyAdvice).RuleID ∧
      ((applySuppression l).getD n dummyAdvice).Command = (l.getD n dummyAdvice).Command ∧
      ((applySuppression l).getD n dummyAdvice).Description =
        (l.getD n dummyAdvice).Description ∧
      ((applySuppression l).getD n dummyAdvice).Priority = (l.getD n dummyAdvice).Priority := by
  refine ⟨length_applySuppression l, fun n hn => ?_⟩
  rw [applySuppression_getD l n hn]
  exact keyFields_eq (applyAcc_keyFields _ _)

/-- C8 witness: the frame property applied to the concrete three-entry list of
`doubleOpAdvice` at position 2. -/
theorem applySuppression_frame_witness :
    ((applySuppression doubleOpAdvice).getD 2 dummyAdvice).RuleID =
      (doubleOpAdvice.getD 2 dummyAdvice).RuleID ∧
    ((applySuppression doubleOpAdvice).getD 2 dummyAdvice).Command =
      (doubleOpAdvice.getD 2 dummyAdvice).Command ∧
    ((applySuppression doubleOpAdvice).getD 2 dummyAdvice).Description =
      (doubleOpAdvice.getD 2 dummyAdvice).Description ∧
    ((applySuppression doubleOpAdvice).getD 2 dummyAdvice).Priority =
      (doubleOpAdvice.getD 2 dummyAdvice).Priority :=
  (applySuppression_frame doubleOpAdvice).2 2 (by decide)

/-- C4: determinism.  The engine is a pure function of the snapshot (the only
Go map operations on the evaluation path are reads — the `activeCommands` map
built in the first pass of `applySuppression` is never consulted — and the sort
input has pairwise distinct priorities, so Go's unstable sort is also
value-deterministic here); two evaluations of equal inputs yield equal ordered
advice lists, suppressed flags and reasons included. -/
theorem evaluate_deterministic (s₁ s₂ : RepoState) (h : s₁ = s₂) :
    Evaluate s₁ = Evaluate s₂ :=
  congrArg Evaluate h

/-- C4 witness: determinism applied at the scenario-B snapshot. -/
theorem evaluate_deterministic_witness : Evaluate scenarioB = Evaluate scenarioB :=
  evaluate_deterministic scenarioB scenarioB rfl

/-- C5 (scenario B): for `MergeInProgress=true, Ahead=1, Behind=0, Dirty=false`
the engine produces the in-progress-merge advice (R009, priority 98) active and
the push advice (R004, priority 50) suppressed, with a reason citing the
merge-continuation command key `"merge --continue"`. -/
theorem scenarioB_evaluate :
    Evaluate scenarioB =
      [ { RuleID := "R009", Command := "git merge --continue OR git merge --abort",
          Description := "Merge in progress - complete or abort", Priority := 98,
          Suppressed := false, Reason := "" },
        { RuleID := "R004", Command := "git push",
          Description := "Local commits ready to push", Priority := 50,
          Suppressed := true,
          Reason := "Suppressed by merge --continue (higher priority)" } ] := by
  decide

/-- C6 (scenario C): for `ForcePushToShared=true, ResetOnProtectedBranch=true`
the configuration-aware evaluation (with the default configuration) produces
exactly the force-push warning (R037) followed by the reset-on-protected
warning (R039), both priority 100, in catalog declaration order, and neither
suppressed. -/
theorem scenarioC_evaluate :
    EvaluateWithConfig Config.Defaults scenarioC =
      [ { RuleID := "R037", Command := "# DO NOT git push --force on shared branches!",
          Description := "Force-push to shared branch - this is how trust dies",
          Priority := 100, Suppressed := false, Reason := "" },
        { RuleID := "R039", Command := "# DO NOT reset on protected branches!",
          Description := "Reset on protected branch - muscle memory is not a justification",
          Priority := 100, Suppressed := false, Reason := "" } ] := by
  decide

/-- C2: disabled-rule exclusion.  For every configuration whose disabled set
contains rule identifier `R` and every snapshot, the configuration-aware
evaluation contains no advice with rule identifier `R`, suppressed or not. -/
theorem evaluateWithConfig_disabled_excluded (cfg : Config) (s : RepoState) (R : String)
    (hR : cfg.IsRuleDisabled R = true) :
    ∀ a ∈ EvaluateWithConfig cfg s, ¬(a.RuleID = R) := by
  intro a ha heq
  have h1 : a.RuleID ∈ (EvaluateWithConfig cfg s).map (fun x => x.RuleID) :=
    List.mem_map_of_mem _ ha
  rw [EvaluateWithConfig, ruleID_map_applySuppression] at h1
  have hperm := (List.perm_insertionSort (fun a b : Advice => b.Priority ≤ a.Priority)
    (((ModularRules.AllRules cfg).filter
        (fun r => !cfg.IsRuleDisabled r.ID && r.Check s)).map toAdvice)).map
    (fun x : Advice => x.RuleID)
  rw [sortByPriority] at h1
  have h2 := hperm.mem_iff.mp h1
  rw [List.map_map] at h2
  rcases List.mem_map.mp h2 with ⟨r, hrmem, hrid⟩
  rcases (List.mem_filter.mp hrmem) with ⟨_, hq⟩
  rcases (Bool.and_eq_true _ _).mp hq with ⟨hnotdis, _⟩
  have hdis : cfg.IsRuleDisabled r.ID = false := by
    simpa using hnotdis
  have hrid' : r.ID = a.RuleID := hrid
  rw [hrid', heq, hR] at hdis
  exact Bool.true_eq_false ▸ hdis

/-- C2 witness: with R004 disabled, the scenario-B evaluation contains only the
merge-continuation advice, and the claim instantiated at it yields
`"R009" ≠ "R004"`. -/
theorem evaluateWithConfig_disabled_excluded_witness :
    ¬(({ RuleID := "R009", Command := "git merge --continue OR git merge --abort",
         Description := "Merge in progress - complete or abort", Priority := 98,
         Suppressed := false, Reason := "" } : Advice).RuleID = "R004") :=
  evaluateWithConfig_disabled_excluded cfgDisabledPush scenarioB "R004" (by decide)
    { RuleID := "R009", Command := "git merge --continue OR git merge --abort",
      Description := "Merge in progress - complete or abort", Priority := 98,
      Suppressed := false, Reason := "" } (by decide)

/-- C10: output reason/flag invariant.  Every entry of `Evaluate`'s output has
an empty reason exactly when its suppressed flag is false; when the flag is
true, the reason is non-empty and is `"Suppressed by "` followed by the
suppressing entry's command key followed by `" (higher priority)"` — where the
suppressing entry is an earlier, still-active output entry whose command key is
a (non-empty) key of the suppression table.  (`++` associates to the left, so
the equality exhibits `"Suppressed by " ++ c` as a prefix of the reason.) -/
theorem evaluate_reason_invariant (s : RepoState) :
    ∀ n : Nat, n < (Evaluate s).length →
      ((((Evaluate s).getD n dummyAdvice).Reason = "") ↔
        (((Evaluate s).getD n dummyAdvice).Suppressed = false)) ∧
      (((Evaluate s).getD n dummyAdvice).Suppressed = true →
        ∃ c m, m < n ∧ ((Evaluate s).getD m dummyAdvice).Suppressed = false ∧
          extractCommand ((Evaluate s).getD m dummyAdvice).Command = c ∧
          (suppressesLookup c).isSome = true ∧ ¬(c = "") ∧
          ((Evaluate s).getD n dummyAdvice).Reason =
            "Suppressed by " ++ c ++ " (higher priority)") := by
  intro n hn
  have hEv : Evaluate s = applySuppression (sortByPriority (rawAdvice LegacyRules.AllRules s)) :=
    rfl
  set L := sortByPriority (rawAdvice LegacyRules.AllRules s) with hL
  have hlen : (Evaluate s).length = L.length := by rw [hEv]; exact length_applySuppression L
  have hnL : n < L.length := hlen ▸ hn
  have hinit : ∀ x ∈ L, x.Suppressed = false ∧ x.Reason = "" := by
    intro x hx
    rw [hL, sortByPriority] at hx
    have hx' : x ∈ rawAdvice LegacyRules.AllRules s :=
      (List.perm_insertionSort _ _).mem_iff.mp hx
    rcases List.mem_map.mp hx' with ⟨r, _, hr⟩
    rw [← hr]
    exact ⟨rfl, rfl⟩
  have hinitn : (L.getD n dummyAdvice).Suppressed = false ∧
      (L.getD n dummyAdvice).Reason = "" := by
    apply hinit
    rw [List.getD_eq_getElem L dummyAdvice hnL]
    exact List.getElem_mem hnL
  have hgetn : (Evaluate s).getD n dummyAdvice =
      applyAcc (accAt [] L n) (L.getD n dummyAdvice) := by
    rw [hEv]
    exact applySuppression_getD L n hnL
  rw [hgetn, applyAcc_char]
  rcases hm : lastMatch (accAt [] L n) (L.getD n dummyAdvice) with _ | p
  · refine ⟨?_, ?_⟩
    · simp only [Option.elim]
      rw [hinitn.1, hinitn.2]
      simp
    intro habs
    simp only [Option.elim] at habs
    rw [hinitn.1] at habs
    exact absurd habs (by simp)
  · constructor
    · constructor
      · intro habs
        exact absurd habs (reason_ne_empty p.1)
      · intro habs
        exact absurd habs (by simp [Option.elim, mark])
    · intro _
      have hpmem : p ∈ accAt [] L n := List.mem_reverse.mp (List.mem_of_find?_eq_some hm)
      rcases accAt_mem_source L [] n p hpmem with h | ⟨m, hm1, hm2, hm3, hm4, hm5⟩
      · simp at h
      · refine ⟨p.1, m, hm1, ?_, ?_, by rw [hm5]; rfl, suppresses_key_ne_empty hm5, rfl⟩
        · rw [hEv, applySuppression_getD L m hm2]
          exact hm3
        · rw [hEv, applySuppression_getD L m hm2, applyAcc_Command]
          exact hm4.symm

/-- C10 witness: the invariant applied to scenario B at position 1 (the
suppressed push advice). -/
theorem evaluate_reason_invariant_witness :
    ((((Evaluate scenarioB).getD 1 dummyAdvice).Reason = "") ↔
      (((Evaluate scenarioB).getD 1 dummyAdvice).Suppressed = false)) ∧
    (((Evaluate scenarioB).getD 1 dummyAdvice).Suppressed = true →
      ∃ c m, m < 1 ∧ ((Evaluate scenarioB).getD m dummyAdvice).Suppressed = false ∧
        extractCommand ((Evaluate scenarioB).getD m dummyAdvice).Command = c ∧
        (suppressesLookup c).isSome = true ∧ ¬(c = "") ∧
        ((Evaluate scenarioB).getD 1 dummyAdvice).Reason =
          "Suppressed by " ++ c ++ " (higher priority)") :=
  evaluate_reason_invariant scenarioB 1 (by decide)

/-- C1: priority ordering.  For every snapshot the rule identifiers of the
output are exactly the catalog-order identifiers of the triggered rules (so the
whole output, not just equal-priority pairs, is in catalog enumeration order),
the output priorities are non-increasing, and any two entries with equal
priority (there are none, the catalog priorities being pairwise distinct) are
in catalog declaration order. -/
theorem evaluate_priority_order (s : RepoState) :
    ((Evaluate s).map (fun a => a.RuleID) =
      (LegacyRules.AllRules.filter (fun r => r.Check s)).map (fun r => r.ID)) ∧
    ((Evaluate s).map (fun a => a.Priority)).Pairwise (fun x y => y ≤ x) ∧
    (∀ i j : Fin (Evaluate s).length, i ≤ j →
      ((Evaluate s).get i).Priority = ((Evaluate s).get j).Priority →
      catalogIdx ((Evaluate s).get i).RuleID ≤ catalogIdx ((Evaluate s).get j).RuleID) := by
  have he := evaluate_eq_applySuppression s
  have hprio : (Evaluate s).map (fun a => a.Priority) =
      (rawAdvice LegacyRules.AllRules s).map (fun a => a.Priority) := by
    rw [he]; exact priority_map_applySuppression _
  have hstrict : ((Evaluate s).map (fun a => a.Priority)).Pairwise (fun x y => y < x) := by
    rw [hprio]
    exact List.pairwise_map.mpr (rawAdvice_pairwise s)
  refine ⟨?_, hstrict.imp (fun h => le_of_lt h), ?_⟩
  · rw [he, ruleID_map_applySuppression, rawAdvice, List.map_map]
    rfl
  · intro i j hij heq
    rcases eq_or_lt_of_le hij with hij' | hij'
    · subst hij'
      exact le_refl _
    · exfalso
      have hstrict' : (Evaluate s).Pairwise (fun a b => b.Priority < a.Priority) :=
        List.pairwise_map.mp hstrict
      have := List.pairwise_iff_get.mp hstrict' i j hij'
      omega

/-- C1 witness: the tie clause applied at scenario B, position 0. -/
theorem evaluate_priority_order_witness :
    catalogIdx (((Evaluate scenarioB).get ⟨0, by decide⟩).RuleID) ≤
      catalogIdx (((Evaluate scenarioB).get ⟨0, by decide⟩).RuleID) :=
  (evaluate_priority_order scenarioB).2.2 ⟨0, by decide⟩ ⟨0, by decide⟩ (le_refl _) rfl

/-- C3 counterexample: with a merge and a rebase both in progress and one
commit to push (`doubleOpState`), the push advice (position 2) is first
suppressed by the merge-continuation entry (position 0, which stays active and
whose suppression set contains `"push"`), yet its final reason names the
rebase-continuation entry (position 1): the inner loop does not skip
already-suppressed targets, so a later active suppressor overwrites the reason
set by the first (highest-priority) applicable one. -/
theorem suppression_first_reason_cex :
    ((Evaluate doubleOpState).getD 0 dummyAdvice).Suppressed = false ∧
    ((Evaluate doubleOpState).getD 0 dummyAdvice).Priority = 98 ∧
    extractCommand ((Evaluate doubleOpState).getD 0 dummyAdvice).Command =
      "merge --continue" ∧
    suppressesLookup "merge --continue" =
      some ["merge", "rebase", "reset", "commit", "pull", "push", "checkout"] ∧
    ((Evaluate doubleOpState).getD 1 dummyAdvice).Suppressed = false ∧
    ((Evaluate doubleOpState).getD 1 dummyAdvice).Priority = 97 ∧
    extractCommand ((Evaluate doubleOpState).getD 1 dummyAdvice).Command =
      "rebase --continue" ∧
    extractCommand ((Evaluate doubleOpState).getD 2 dummyAdvice).Command = "push" ∧
    ((Evaluate doubleOpState).getD 2 dummyAdvice).Suppressed = true ∧
    ((Evaluate doubleOpState).getD 2 dummyAdvice).Reason =
      "Suppressed by rebase --continue (higher priority)" ∧
    ¬(((Evaluate doubleOpState).getD 2 dummyAdvice).Reason =
      "Suppressed by merge --continue (higher priority)") := by
  decide

/-- C3 (amended): in the suppression pass an already-suppressed entry never
suppresses anything (the iteration for a suppressed entry leaves the rest of
the pass unchanged), no suppressed flag is ever cleared, and a suppressed
entry's final state is determined by the *last* applicable active suppressor
before it — each applicable active entry overwrites the flag and reason in
turn, so the reason of the last one survives (rather than the first one's, as
originally claimed). -/
theorem suppression_monotone_last_reason :
    (∀ (a : Advice) (rest : List Advice), a.Suppressed = true →
      applySuppression (a :: rest) = a :: applySuppression rest) ∧
    (∀ l : List Advice,
      List.Forall₂ (fun a b => a.Suppressed = true → b.Suppressed = true) l
        (applySuppression l)) ∧
    (∀ (l : List Advice) (n : Nat), n < l.length →
      (applySuppression l).getD n dummyAdvice =
        (lastMatch (accAt [] l n) (l.getD n dummyAdvice)).elim (l.getD n dummyAdvice)
          (fun p => mark p.1 (l.getD n dummyAdvice))) := by
  refine ⟨?_, ?_, ?_⟩
  · intro a rest h
    show applySuppressionFuel (rest.length + 1) (a :: rest) = a :: applySuppression rest
    simp only [applySuppressionFuel, h, if_true]
    rfl
  · intro l
    rw [applySuppression_eq_suppressionAux]
    exact suppressionAux_flag_mono l []
  · intro l n hn
    rw [applySuppression_getD l n hn, applyAcc_char]

/-- C3 witness: the amended claim applied to a concrete suppressed head and to
position 2 of the concrete `doubleOpAdvice` list. -/
theorem suppression_monotone_last_reason_witness :
    (applySuppression (mark "reset" dummyAdvice :: []) =
      mark "reset" dummyAdvice :: applySuppression []) ∧
    ((applySuppression doubleOpAdvice).getD 2 dummyAdvice =
      (lastMatch (accAt [] doubleOpAdvice 2) (doubleOpAdvice.getD 2 dummyAdvice)).elim
        (doubleOpAdvice.getD 2 dummyAdvice)
        (fun p => mark p.1 (doubleOpAdvice.getD 2 dummyAdvice))) :=
  ⟨suppression_monotone_last_reason.1 (mark "reset" dummyAdvice) [] rfl,
   suppression_monotone_last_reason.2.2 doubleOpAdvice 2 (by decide)⟩

/-- C9: command keys of compound templates come from the last `&&`-separated
sub-command.  (1) For every template containing `"&&"`, `extractCommand`
continues with the trimmed last `&&`-part (never the first).  (2) In
particular rule R002's template `"git add <files> && git commit"` has key
`"commit"`, while the first sub-command would have given a different key.
(3) Consequently an advice whose key is in the suppression set of an earlier
entry that is still active in the output ends up suppressed — e.g. the R002
advice whenever an active reset or continuation advice precedes it.  (In the
engine's output "precedes" coincides with "has higher or equal priority",
since the list is priority-sorted.) -/
theorem extractCommand_last_subcommand :
    (∀ cmd : String, goContains cmd "&&" = true →
      extractCommand cmd =
        keyFromSimple (pickFirstAlternative (goTrim ((goSplit cmd "&&").getLastD "")))) ∧
    (extractCommand "git add <files> && git commit" = "commit" ∧
      ¬(keyFromSimple (pickFirstAlternative
          (goTrim ((goSplit "git add <files> && git commit" "&&").headD ""))) = "commit")) ∧
    (∀ (l : List Advice) (i j : Nat) (targets : List String) (tc : String),
      i < j → j < l.length →
      ((applySuppression l).getD i dummyAdvice).Suppressed = false →
      suppressesLookup (extractCommand (l.getD i dummyAdvice).Command) = some targets →
      tc ∈ targets →
      extractCommand ((l.getD j dummyAdvice).Command) = tc →
      ((applySuppression l).getD j dummyAdvice).Suppressed = true) := by
  refine ⟨?_, ⟨by decide, by decide⟩, ?_⟩
  · intro cmd h
    rw [extractCommand, dropCompound, if_pos h]
  · intro l i j targets tc hij hj hact hlook htc hcmd
    have hi : i < l.length := lt_trans hij hj
    rw [applySuppression_getD l i hi] at hact
    have hmem1 : (extractCommand (l.getD i dummyAdvice).Command, targets)
        ∈ accAt [] l (i + 1) :=
      accAt_succ_mem l [] i targets hi hact hlook
    have hmem2 : (extractCommand (l.getD i dummyAdvice).Command, targets)
        ∈ accAt [] l j :=
      accAt_mono l [] (i + 1) j _ (by omega) hmem1
    rw [applySuppression_getD l j hj]
    exact applyAcc_suppressed_of_match hmem2 (by rw [hcmd]; exact htc)

/-- C9 witness: part (1) at rule R043's compound template, and part (3) at the
concrete reset-then-R002 list, where the reset entry stays active and its
suppression set contains the R002 key `"commit"`. -/
theorem extractCommand_last_subcommand_witness :
    (extractCommand "git lfs track <pattern> && git add .gitattributes" =
      keyFromSimple (pickFirstAlternative (goTrim
        ((goSplit "git lfs track <pattern> && git add .gitattributes" "&&").getLastD "")))) ∧
    ((applySuppression resetCommitAdvice).getD 1 dummyAdvice).Suppressed = true :=
  ⟨extractCommand_last_subcommand.1 "git lfs track <pattern> && git add .gitattributes"
      (by decide),
   extractCommand_last_subcommand.2.2 resetCommitAdvice 0 1 ["commit"] "commit"
      (by decide) (by decide) (by decide) (by decide) (by decide) (by decide)⟩

end GitNext
